import Mathlib

/-!
Verification development for the RoadCLI core (`src/roadcli/cli.py`):
the `Option`/`Argument`/`Command` data model, the recursive `Parser`
(`Parser.parse`, `Parser._find_option`, `Parser._find_option_short`,
`Parser._convert`, `Parser._apply_defaults`), the `Context` carrier, and
the `CLI` runner (`CLI.run`, `CLI.argument`, hooks).

The embedding is a direct translation of the Python code.  Python strings
are Lean `String`s, Python dicts are insertion-ordered association lists
(assignment to an existing key keeps its position, a fresh key is appended
at the end, as CPython dicts do), Python exceptions are a `PyExc` value
carrying the exception class name and its message, and fallible code runs
in `Except PyExc`.
-/

set_option autoImplicit false

namespace RoadCLI

/-- The value types a descriptor can declare (`type=str/int/float/bool` in
the Python source).  -/
inductive PyType where
  | str
  | int
  | float
  | bool
deriving DecidableEq

/-- Python runtime values that flow through the parser: `None`, strings,
ints, floats, bools and lists.  A float is represented by the literal the
Python `float()` constructor accepted: no claim in this development depends
on float arithmetic, only on which literals convert. -/
inductive Value where
  | none
  | str (s : String)
  | int (n : Int)
  | float (lit : String)
  | bool (b : Bool)
  | list (vs : List Value)

/-- A raised Python exception: its class name and its message. -/
structure PyExc where
  cls : String
  msg : String
deriving DecidableEq

/-- A single ASCII apostrophe, as Python uses to quote offending tokens in
error messages. -/
def sq : String := String.mk [Char.ofNat 39]

/-- Quote a string the way `repr` does inside builtin error messages. -/
def q (s : String) : String := sq ++ s ++ sq

/-- `Option` descriptor dataclass from the source (named `Opt` here to
avoid clashing with Lean's `Option`). -/
structure Opt where
  name : String
  short : String
  type : PyType
  default : Value
  required : Bool
  help : String
  multiple : Bool

/-- `Argument` descriptor dataclass from the source. -/
structure Arg where
  name : String
  type : PyType
  required : Bool
  default : Value
  help : String
  nargs : String

/-- What a handler returns when it does not raise: an `int`, or any
non-`int` value (normalized to exit code 0 by `CLI.run`). -/
inductive HandlerRet where
  | intRet (n : Int)
  | nonInt

/-- The observable behavior of a Python handler callable: return a value
or raise an exception. -/
inductive HandlerB where
  | ret (r : HandlerRet)
  | raiseExc (e : PyExc)

/-- A handler function value: `hid` is the function's identity (Python
compares handlers with `==`, which is identity for functions), `beh` its
behavior when called. -/
structure HandlerV where
  hid : Nat
  beh : HandlerB

/-- `Command` dataclass: a tree node with options, arguments and
subcommands (a name-keyed dict, here an association list). -/
inductive Cmd where
  | mk (name : String) (handler : HandlerV) (help : String)
      (options : List Opt) (arguments : List Arg)
      (subcommands : List (String × Cmd))

def Cmd.name : Cmd → String
  | .mk n _ _ _ _ _ => n

def Cmd.handler : Cmd → HandlerV
  | .mk _ h _ _ _ _ => h

def Cmd.options : Cmd → List Opt
  | .mk _ _ _ o _ _ => o

def Cmd.arguments : Cmd → List Arg
  | .mk _ _ _ _ a _ => a

def Cmd.subcommands : Cmd → List (String × Cmd)
  | .mk _ _ _ _ _ s => s

/-- `Context`: resolved options and arguments, the optional parent
context set during subcommand delegation, and the resolved command. -/
inductive Ctx where
  | mk (options : List (String × Value)) (arguments : List (String × Value))
      (parent : Option Ctx) (command : Cmd)

def Ctx.options : Ctx → List (String × Value)
  | .mk o _ _ _ => o

def Ctx.arguments : Ctx → List (String × Value)
  | .mk _ a _ _ => a

def Ctx.parent : Ctx → Option Ctx
  | .mk _ _ p _ => p

def Ctx.command : Ctx → Cmd
  | .mk _ _ _ c => c

/-- First-match lookup in an insertion-ordered dict. -/
def lookupPairs {α : Type} : List (String × α) → String → Option α
  | [], _ => none
  | (k, v) :: rest, n => if k = n then some v else lookupPairs rest n

/-- Dict assignment `d[n] = v`: overwrite in place, or append a fresh key
at the end. -/
def updateAssoc {α : Type} : List (String × α) → String → α → List (String × α)
  | [], n, v => [(n, v)]
  | (k, w) :: rest, n, v =>
    if k = n then (k, v) :: rest else (k, w) :: updateAssoc rest n v

/-- `collected_args.setdefault(name, []).append(v)`, as lines 99-101 do
with an explicit membership test. -/
def appendAt : List (String × List Value) → String → Value → List (String × List Value)
  | [], n, v => [(n, [v])]
  | (k, vs) :: rest, n, v =>
    if k = n then (k, vs ++ [v]) :: rest else (k, vs) :: appendAt rest n v

/-- `Parser._find_option`: first `Option` whose `name` equals the key. -/
def findOptBy : List Opt → String → Option Opt
  | [], _ => none
  | o :: rest, n => if Opt.name o = n then some o else findOptBy rest n

def findOption (c : Cmd) (n : String) : Option Opt :=
  findOptBy (Cmd.options c) n

/-- `Parser._find_option_short`: first `Option` whose `short` equals the
one-character string `arg[1]`. -/
def findShortBy : List Opt → Char → Option Opt
  | [], _ => none
  | o :: rest, ch =>
    if Opt.short o = String.mk [ch] then some o else findShortBy rest ch

def findOptionShort (c : Cmd) (ch : Char) : Option Opt :=
  findShortBy (Cmd.options c) ch

/-- `arg in self.command.subcommands` / `self.command.subcommands[arg]`. -/
def findSub (subs : List (String × Cmd)) (n : String) : Option Cmd :=
  lookupPairs subs n

/-- `arg.startswith("--")`. -/
def startsDashDash (t : String) : Bool :=
  match t.data with
  | '-' :: '-' :: _ => true
  | _ => false

/-- `arg[2:]` of a token that starts with `--`. -/
def dropDashes (t : String) : List Char :=
  match t.data with
  | '-' :: '-' :: k => k
  | _ => []

/-- `arg.startswith("-") and len(arg) == 2`, returning `arg[1]`.  Only
consulted after the `--` test failed, as in the Python `elif`. -/
def shortForm? (t : String) : Option Char :=
  match t.data with
  | ['-', ch] => some ch
  | _ => none

/-- `key.split("=", 1)` when `"=" in key`: split at the first `=`. -/
def splitFirstEq : List Char → Option (List Char × List Char)
  | [] => none
  | c :: cs =>
    if c = '=' then some ([], cs)
    else
      match splitFirstEq cs with
      | some (a, b) => some (c :: a, b)
      | none => none

/-- The ASCII whitespace Python's `int()`/`float()` strip. -/
def isPyWs (c : Char) : Bool :=
  c = ' ' || c = Char.ofNat 9 || c = Char.ofNat 10 || c = Char.ofNat 13 ||
  c = Char.ofNat 11 || c = Char.ofNat 12

def stripWs (l : List Char) : List Char :=
  ((l.dropWhile isPyWs).reverse.dropWhile isPyWs).reverse

/-- Digits of a Python numeric literal after the first digit: further
digits, with single underscores allowed between two digits. -/
def digitsAfter : Nat → List Char → Option Nat
  | acc, [] => some acc
  | acc, '_' :: c :: rest =>
    if c.isDigit then digitsAfter (acc * 10 + (c.toNat - 48)) rest else none
  | acc, c :: rest =>
    if c.isDigit then digitsAfter (acc * 10 + (c.toNat - 48)) rest else none

/-- A full run of digits (underscore-grouped), consuming the whole list. -/
def digitsCore : List Char → Option Nat
  | [] => none
  | c :: rest => if c.isDigit then digitsAfter (c.toNat - 48) rest else none

/-- Python `int(s)` on a decimal string literal (ASCII digits): strip
whitespace, optional sign, underscore-grouped digits.  `none` models the
`ValueError` raise. -/
def pyIntParse (s : String) : Option Int :=
  match stripWs s.data with
  | '+' :: r => (digitsCore r).map Int.ofNat
  | '-' :: r => (digitsCore r).map (fun n => -(n : Int))
  | r => (digitsCore r).map Int.ofNat

/-- Consume an underscore-grouped digit run after its first digit,
returning the remainder of the list. -/
def consumeMore : List Char → List Char
  | [] => []
  | '_' :: c :: rest => if c.isDigit then consumeMore rest else '_' :: c :: rest
  | c :: rest => if c.isDigit then consumeMore rest else c :: rest

/-- Consume a digit run that must start with a digit; `none` if absent. -/
def consumeRun : List Char → Option (List Char)
  | [] => none
  | c :: rest => if c.isDigit then some (consumeMore rest) else none

/-- Optional exponent part of a float literal, which must end the list. -/
def expOk (l : List Char) : Bool :=
  match l with
  | '+' :: r =>
    match consumeRun r with
    | some [] => true
    | _ => false
  | '-' :: r =>
    match consumeRun r with
    | some [] => true
    | _ => false
  | r =>
    match consumeRun r with
    | some [] => true
    | _ => false

/-- After the mantissa: either nothing, or `e`/`E` and an exponent. -/
def floatTailOk (l : List Char) : Bool :=
  match l with
  | [] => true
  | c :: rest => if c = 'e' || c = 'E' then expOk rest else false

/-- Mantissa of a float literal: `digits [. [digits]]` or `. digits`. -/
def mantissaOk (l : List Char) : Bool :=
  match consumeRun l with
  | some rest =>
    match rest with
    | '.' :: r2 =>
      (match consumeRun r2 with
       | some r3 => floatTailOk r3
       | none => floatTailOk r2)
    | _ => floatTailOk rest
  | none =>
    match l with
    | '.' :: r2 =>
      (match consumeRun r2 with
       | some r3 => floatTailOk r3
       | none => false)
    | _ => false

def lowerChars (l : List Char) : List Char := l.map Char.toLower

/-- Python `float(s)` acceptance: strip whitespace, optional sign, then a
numeric mantissa/exponent or one of the special words `inf`, `infinity`,
`nan` (case-insensitive). -/
def pyFloatOk (s : String) : Bool :=
  let l0 := stripWs s.data
  let l := match l0 with
    | '+' :: r => r
    | '-' :: r => r
    | r => r
  lowerChars l = "inf".data || lowerChars l = "infinity".data ||
    lowerChars l = "nan".data || mantissaOk l

def typeName : PyType → String
  | .str => "str"
  | .int => "int"
  | .float => "float"
  | .bool => "bool"

/-- Message of the `ValueError` raised by Python's `int()`. -/
def intErrMsg (lit : String) : String :=
  "invalid literal for int() with base 10: " ++ q lit

/-- Message of the `ValueError` raised by Python's `float()`. -/
def floatErrMsg (lit : String) : String :=
  "could not convert string to float: " ++ q lit

def pyLower (s : String) : String := String.mk (lowerChars s.data)

/-- `Parser._convert` (lines 126-131): `None` passes through; `bool`
compares the lowercased token against the truthy literals; otherwise the
target type's constructor is applied, raising `ValueError` on a malformed
numeric literal. -/
def convert : Option String → PyType → Except PyExc Value
  | none, _ => .ok Value.none
  | some s, .bool =>
    .ok (Value.bool (pyLower s == "true" || pyLower s == "1" ||
                     pyLower s == "yes" || pyLower s == "on"))
  | some s, .str => .ok (Value.str s)
  | some s, .int =>
    match pyIntParse s with
    | some n => .ok (Value.int n)
    | none => .error ⟨"ValueError", intErrMsg s⟩
  | some s, .float =>
    if pyFloatOk s then .ok (Value.float s)
    else .error ⟨"ValueError", floatErrMsg s⟩

/-- The mutable locals of `Parser.parse`'s loop: `ctx.options`,
`ctx.arguments`, `collected_args` and `arg_idx`. -/
structure PState where
  options : List (String × Value)
  arguments : List (String × Value)
  collected : List (String × List Value)
  argIdx : Nat

/-- The state at `parse`'s entry: fresh `Context`, `i = 0`, `arg_idx = 0`,
empty `collected_args`. -/
def initState : PState := ⟨[], [], [], 0⟩

def setOpt : PState → String → Value → PState
  | ⟨o, a, cl, i⟩, n, v => ⟨updateAssoc o n v, a, cl, i⟩

def setArg : PState → String → Value → PState
  | ⟨o, a, cl, i⟩, n, v => ⟨o, updateAssoc a n v, cl, i⟩

def pushCollected : PState → String → Value → PState
  | ⟨o, a, cl, i⟩, n, v => ⟨o, a, appendAt cl n v, i⟩

def nextArg : PState → PState
  | ⟨o, a, cl, i⟩ => ⟨o, a, cl, i + 1⟩

/-- Lines 133-139, `Parser._apply_defaults` over one descriptor list
(projected to name/default pairs): set the default for every name not yet
present. -/
def fillDefaults : List (String × Value) → List (String × Value) → List (String × Value)
  | m, [] => m
  | m, (n, d) :: rest =>
    fillDefaults (if (lookupPairs m n).isSome then m else m ++ [(n, d)]) rest

def optDefaults (opts : List Opt) : List (String × Value) :=
  opts.map (fun o => (Opt.name o, Opt.default o))

def argDefaults (args : List Arg) : List (String × Value) :=
  args.map (fun a => (Arg.name a, Arg.default a))

/-- Lines 108-109: flush `collected_args` into `ctx.arguments`. -/
def flushCollected (st : PState) : List (String × Value) :=
  (PState.collected st).foldl
    (fun m p => updateAssoc m p.1 (Value.list p.2)) (PState.arguments st)

/-- Loop exit (lines 108-112): flush collected variadic values, apply
defaults for options and arguments, return the `Context`. -/
def finish (c : Cmd) (st : PState) : Ctx :=
  Ctx.mk (fillDefaults (PState.options st) (optDefaults (Cmd.options c)))
         (fillDefaults (flushCollected st) (argDefaults (Cmd.arguments c)))
         Option.none c

/-- The partially built `Context` visible at a delegation point: options
and scalar arguments bound so far; `collected_args` has not been flushed
and no defaults have been applied (the early `return` at line 94 skips
lines 108-111). -/
def parentCtxOf (c : Cmd) (st : PState) : Ctx :=
  Ctx.mk (PState.options st) (PState.arguments st) Option.none c

/-- Line 93: `sub_ctx.parent = ctx` overwrites the parent field of the
returned context, whatever it held. -/
def setParent : Ctx → Ctx → Ctx
  | .mk o a _ cm, p => .mk o a (some p) cm

/-- Outcome of processing one token of `Parser.parse`'s loop body. -/
inductive StepOut where
  | err (e : PyExc)
  | stop (st2 : PState)
  | deleg (sub : Cmd)
  | cont0 (st2 : PState)
  | cont1 (st2 : PState)

/-- One iteration of the `while` body of `Parser.parse` (lines 68-106),
processing token `a` with the remaining tokens `rest` available for
lookahead.  Mirrors the Python control flow branch by branch:

* `--`-token with `=`: split, look up, coerce and store if registered,
  silently drop otherwise; only this token is consumed (`cont0`).
* `--`-token without `=`: the next token is consumed unconditionally as
  the value (`cont1`), or `None` is used when the stream ends (`stop`,
  since `i` then moves past the end); unknown names are dropped but the
  value token is still consumed.
* `-X` token: like the long form, except an unknown short option does not
  consume a value token (`cont0`).
* bare token: a registered subcommand name delegates (`deleg`); otherwise
  it is bound positionally — appended to the variadic accumulator without
  advancing `arg_idx` when the current `Argument` has `nargs` in
  `{*, +}`, stored as a scalar advancing `arg_idx` otherwise, and
  silently discarded when `arg_idx` is past the declared `Arguments`.
* a failed coercion raises (`err`). -/
def stepTok (c : Cmd) (st : PState) (a : String) (rest : List String) : StepOut :=
  if startsDashDash a then
    match splitFirstEq (dropDashes a) with
    | some (k, v) =>
      match findOption c (String.mk k) with
      | some o =>
        match convert (some (String.mk v)) (Opt.type o) with
        | .error e => .err e
        | .ok val => .cont0 (setOpt st (Opt.name o) val)
      | none => .cont0 st
    | none =>
      match rest with
      | [] =>
        match findOption c (String.mk (dropDashes a)) with
        | some o =>
          match convert none (Opt.type o) with
          | .error e => .err e
          | .ok val => .stop (setOpt st (Opt.name o) val)
        | none => .stop st
      | v :: _ =>
        match findOption c (String.mk (dropDashes a)) with
        | some o =>
          match convert (some v) (Opt.type o) with
          | .error e => .err e
          | .ok val => .cont1 (setOpt st (Opt.name o) val)
        | none => .cont1 st
  else
    match shortForm? a with
    | some ch =>
      match findOptionShort c ch with
      | some o =>
        match rest with
        | [] =>
          match convert none (Opt.type o) with
          | .error e => .err e
          | .ok val => .stop (setOpt st (Opt.name o) val)
        | v :: _ =>
          match convert (some v) (Opt.type o) with
          | .error e => .err e
          | .ok val => .cont1 (setOpt st (Opt.name o) val)
      | none => .cont0 st
    | none =>
      match findSub (Cmd.subcommands c) a with
      | some sub => .deleg sub
      | none =>
        match (Cmd.arguments c)[PState.argIdx st]? with
        | some ad =>
          if Arg.nargs ad = "*" || Arg.nargs ad = "+" then
            match convert (some a) (Arg.type ad) with
            | .error e => .err e
            | .ok val => .cont0 (pushCollected st (Arg.name ad) val)
          else
            match convert (some a) (Arg.type ad) with
            | .error e => .err e
            | .ok val => .cont0 (nextArg (setArg st (Arg.name ad) val))
        | none => .cont0 st

/-- The loop of `Parser.parse` (lines 60-112) as a recursion over the
remaining tokens.  `cont0` continues after the one consumed token,
`cont1` additionally drops the value token just consumed, `stop` ends the
loop (the cursor moved past the end), `deleg` runs a child parser on the
remaining tokens and returns its context with the parent field
overwritten (lines 90-94), and reaching the end of the stream flushes the
collected variadic values and applies defaults (lines 108-112 via
`finish`).  The `cont1`-with-`[]` arm cannot arise (`stepTok` emits
`cont1` only when a lookahead token exists) and also denotes loop exit. -/
def parseLoop (c : Cmd) (st : PState) : List String → Except PyExc Ctx
  | [] => .ok (finish c st)
  | a :: rest =>
    match stepTok c st a rest with
    | .err e => .error e
    | .stop st2 => .ok (finish c st2)
    | .deleg sub =>
      match parseLoop sub initState rest with
      | .error e => .error e
      | .ok subCtx => .ok (setParent subCtx (parentCtxOf c st))
    | .cont0 st2 => parseLoop c st2 rest
    | .cont1 st2 =>
      match rest with
      | [] => .ok (finish c st2)
      | _ :: rest2 => parseLoop c st2 rest2

/-- `Parser(command).parse(args)`. -/
def parse (c : Cmd) (toks : List String) : Except PyExc Ctx :=
  parseLoop c initState toks

/-- The pre-defaults view of the same loop: the `Command` the parse
resolves to (the deepest one reached along the delegation chain) and the
loop state at normal loop exit — everything `Parser.parse` computed
BEFORE the flush/`_apply_defaults` epilogue (lines 108-111) runs at that
deepest level; `none` when the parse raises.  An option name absent from
`(parseLoopPre ...).options` is exactly one the parse never assigned
("unset"), which is what `_apply_defaults` tests at line 135. -/
def parseLoopPre (c : Cmd) (st : PState) : List String → Option (Cmd × PState)
  | [] => some (c, st)
  | a :: rest =>
    match stepTok c st a rest with
    | .err _ => none
    | .stop st2 => some (c, st2)
    | .deleg sub => parseLoopPre sub initState rest
    | .cont0 st2 => parseLoopPre c st2 rest
    | .cont1 st2 =>
      match rest with
      | [] => some (c, st2)
      | _ :: rest2 => parseLoopPre c st2 rest2

/-- First `Argument` with a given name (used only to state properties
about `_apply_defaults`, which scans the declaration list in order). -/
def findArgBy : List Arg → String → Option Arg
  | [], _ => none
  | a :: rest, n => if Arg.name a = n then some a else findArgBy rest n

/-- `pat` is a leading segment of `s` (character lists). -/
def chStarts : List Char → List Char → Bool
  | [], _ => true
  | _ :: _, [] => false
  | p :: ps, c :: cs => p = c && chStarts ps cs

/-- `pat` occurs somewhere inside `s` (character lists). -/
def containsSubChars (pat : List Char) : List Char → Bool
  | [] => chStarts pat []
  | c :: cs => chStarts pat (c :: cs) || containsSubChars pat cs

/-- Python's `pat in s` on strings: substring occurrence.  Used to state
what an error message does or does not mention. -/
def strContains (s pat : String) : Bool := containsSubChars pat.data s.data

/-- Observable behavior of a registered hook when called: return normally
or raise. -/
inductive HookB where
  | ok
  | raiseExc (e : PyExc)

/-- The `CLI` object as `run` sees it: the root command tree and the three
hook lists (`self.hooks["before"/"after"/"error"]`). -/
structure CLIState where
  name : String
  version : String
  root : Cmd
  beforeHooks : List HookB
  afterHooks : List HookB
  errorHooks : List HookB

/-- Run a hook list in order; the first raising hook's exception, if any.
Models both the `before` loop (lines 190-191) and the `after` loop
(lines 207-208). -/
def firstRaise : List HookB → Option PyExc
  | [] => none
  | .ok :: hs => firstRaise hs
  | .raiseExc e :: _ => some e

/-- The `error` hook loop (lines 212-213): every hook is called with the
caught exception, in order; a raising hook stops the loop and its
exception propagates out of `run`.  Returns the list of calls made (one
entry per hook actually invoked, each receiving the caught exception) and
the escaping exception, if any. -/
def fireErrorHooks : List HookB → PyExc → List PyExc × Option PyExc
  | [], _ => ([], none)
  | .ok :: hs, e =>
    let p := fireErrorHooks hs e
    (e :: p.1, p.2)
  | .raiseExc e2 :: _, e => ([e], some e2)

/-- What one `CLI.run` invocation produces: a normal integer return, or an
exception that escaped `run`. -/
inductive RunOutcome where
  | normal (code : Int)
  | uncaught (e : PyExc)

/-- Side effects of `run` that the spec talks about: the error-hook calls
made and the lines printed to stderr.  (Help/version output to stdout is
not modelled; no claim concerns it.) -/
structure RunTrace where
  errorFired : List PyExc
  stderrLines : List String

/-- `result if isinstance(result, int) else 0` (line 210). -/
def retCode : HandlerRet → Int
  | .intRet n => n
  | .nonInt => 0

/-- The `try:` block of `CLI.run` (lines 193-210): help/version
short-circuits, parse, handler call, after hooks, return value
normalization.  An `.error` is an exception reaching the `except` clause.
(`if ctx.command and ctx.command.handler:` is always true in this model:
`ctx.command` is always a `Command` object and `handler` a function, both
truthy in Python.) -/
def tryBody (cli : CLIState) (args : List String) : Except PyExc Int :=
  match args with
  | [] => .ok 0
  | a :: _ =>
    if a = "-h" ∨ a = "--help" then .ok 0
    else if a = "-v" ∨ a = "--version" then .ok 0
    else
      match parse (CLIState.root cli) args with
      | .error e => .error e
      | .ok ctx =>
        match HandlerV.beh (Cmd.handler (Ctx.command ctx)) with
        | .raiseExc e => .error e
        | .ret r =>
          match firstRaise (CLIState.afterHooks cli) with
          | some e => .error e
          | none => .ok (retCode r)

/-- `CLI.run` (lines 187-217).  The `before` loop runs OUTSIDE the
`try`/`except` (lines 190-191 precede line 193), so an exception from a
before hook escapes `run`; an exception inside the `try` fires the error
hooks, prints `Error: {e}` to stderr and returns 1; an exception raised
by an error hook itself escapes `run` from inside the `except` clause. -/
def run (cli : CLIState) (args : List String) : RunOutcome × RunTrace :=
  match firstRaise (CLIState.beforeHooks cli) with
  | some e => (.uncaught e, ⟨[], []⟩)
  | none =>
    match tryBody cli args with
    | .ok n => (.normal n, ⟨[], []⟩)
    | .error e =>
      match fireErrorHooks (CLIState.errorHooks cli) e with
      | (fired, some e2) => (.uncaught e2, ⟨fired, []⟩)
      | (fired, none) => (.normal 1, ⟨fired, ["Error: " ++ PyExc.msg e]⟩)

/-- `CLI._find_command_for_handler` (lines 177-181): scan the root's
direct children for a command whose handler is the given function
(function equality in Python is identity, modelled by `hid`). -/
def findByHid : List (String × Cmd) → Nat → Option Cmd
  | [], _ => none
  | (_, c) :: rest, h =>
    if HandlerV.hid (Cmd.handler c) = h then some c else findByHid rest h

def findCommandForHandler (root : Cmd) (h : Nat) : Option Cmd :=
  findByHid (Cmd.subcommands root) h

/-- The decorator produced by `CLI.argument` (lines 169-175), applied to
the function with identity `fnId`.  When `_find_command_for_handler`
finds the command, line 173 evaluates
`Argument(name=name, type=type, required=required, help=rue, nargs=nargs)`
— `rue` is an unbound name, so Python raises
`NameError: name 'rue' is not defined` before any `Argument` is appended.
When no command is found, nothing happens and the handler is returned
unchanged (the root tree is unmodified). -/
def cliArgument (root : Cmd) (fnId : Nat) (nm : String) (ty : PyType)
    (req : Bool) (hlp : String) (nargsv : String) : Except PyExc Cmd :=
  match findCommandForHandler root fnId with
  | some _ => .error ⟨"NameError", "name " ++ q "rue" ++ " is not defined"⟩
  | none => .ok root

/-! Concrete commands and CLI states used by witnesses and
counterexamples. -/

/-- A handler that returns exit code 0. -/
def okHandler (h : Nat) : HandlerV := ⟨h, .ret (.intRet 0)⟩

/-- `greet` command of the spec's scenario: `--name` (str, default
`"World"`), `--count` (int, default `1`). -/
def greetCmd : Cmd :=
  Cmd.mk "greet" (okHandler 1) "Greet someone"
    [⟨"name", "", .str, Value.str "World", false, "", false⟩,
     ⟨"count", "c", .int, Value.int 1, false, "", false⟩]
    [] []

def migrateC1 : Cmd := Cmd.mk "migrate" (okHandler 3) "" [] [] []

/-- A command with a registered subcommand AND an unfilled positional
argument, to exercise the subcommand-wins tie-break of C1. -/
def dbC1 : Cmd :=
  Cmd.mk "db" (okHandler 2) ""
    [⟨"verbose", "", .str, Value.str "no", false, "", false⟩]
    [⟨"target", .str, true, Value.none, "", ""⟩]
    [("migrate", migrateC1)]

def optC3 : Opt := ⟨"name", "", .str, Value.str "World", false, "", false⟩

def cmdC3 : Cmd := Cmd.mk "greet" (okHandler 1) "" [optC3] [] []

def argC4 : Arg := ⟨"files", .str, true, Value.str "UNSET", "", "+"⟩

def cmdC4 : Cmd := Cmd.mk "add" (okHandler 1) "" [] [argC4] []

def subC5 : Cmd := Cmd.mk "s" (okHandler 2) "" [] [] []

def optVerbose : Opt := ⟨"verbose", "", .str, Value.str "no", false, "", false⟩

/-- Root with a declared option and a subcommand; parsing `["s"]` leaves
the parent context's options empty. -/
def cmdC5 : Cmd :=
  Cmd.mk "root" (okHandler 1) "" [optVerbose] [] [("s", subC5)]

/-- The partially built parent context produced by `parse cmdC5 ["s"]`:
no defaults were applied to it. -/
def parentC5 : Ctx := Ctx.mk [] [] none cmdC5

/-- The context returned by `parse cmdC5 ["s"]`. -/
def ctxC5 : Ctx := Ctx.mk [] [] (some parentC5) subC5

def optNameC5 : Opt := ⟨"name", "", .str, Value.str "World", false, "", false⟩

/-- A subcommand that itself declares two options, so that the final
context of a delegated parse has real options to populate. -/
def subC5w : Cmd := Cmd.mk "s" (okHandler 2) "" [optNameC5, optVerbose] [] []

def cmdC5w : Cmd := Cmd.mk "root" (okHandler 1) "" [optVerbose] [] [("s", subC5w)]

/-- Context returned by `parse cmdC5w ["s", "--name", "Ada"]`: option
`name` was set by a token, option `verbose` was left unset and holds its
declared default `"no"`. -/
def ctxC5w : Ctx :=
  Ctx.mk [("name", Value.str "Ada"), ("verbose", Value.str "no")] []
    (some (Ctx.mk [] [] none cmdC5w)) subC5w

def optC6 : Opt := ⟨"count", "", .int, Value.int 1, false, "", false⟩

def cmdC6 : Cmd := Cmd.mk "calc" (okHandler 1) "" [optC6] [] []

def argC6 : Arg := ⟨"n", .int, true, Value.none, "", ""⟩

def cmdC6a : Cmd := Cmd.mk "calc" (okHandler 1) "" [] [argC6] []

def excBoom : PyExc := ⟨"RuntimeError", "boom"⟩

def excHook : PyExc := ⟨"RuntimeError", "hook failed"⟩

def excHandler : PyExc := ⟨"RuntimeError", "handler failed"⟩

def cmdXok : Cmd := Cmd.mk "x" (okHandler 1) "" [] [] []

def rootXok : Cmd := Cmd.mk "app" (okHandler 0) "" [] [] [("x", cmdXok)]

def cmdXraise : Cmd := Cmd.mk "x" ⟨1, .raiseExc excHandler⟩ "" [] [] []

def rootXraise : Cmd := Cmd.mk "app" (okHandler 0) "" [] [] [("x", cmdXraise)]

/-- A CLI whose single before hook raises; it also has a registered error
hook, which the claim says should fire. -/
def cliBeforeRaises : CLIState :=
  ⟨"app", "1.0.0", rootXok, [.raiseExc excBoom], [], [.ok]⟩

/-- A CLI whose handler raises and whose error hook raises while handling
that exception. -/
def cliErrorRaises : CLIState :=
  ⟨"app", "1.0.0", rootXraise, [], [], [.raiseExc excHook]⟩

/-- A CLI whose after hook raises, with two well-behaved error hooks. -/
def cliAfterRaises : CLIState :=
  ⟨"app", "1.0.0", rootXok, [.ok], [.raiseExc excHook], [.ok, .ok]⟩

/-- The context returned by `parse rootXok ["x"]`. -/
def ctxC7 : Ctx := Ctx.mk [] [] (some (Ctx.mk [] [] none rootXok)) cmdXok

def cmdC9 : Cmd := Cmd.mk "greet" (okHandler 1) "Greet someone" [] [] []

def rootC9 : Cmd := Cmd.mk "myapp" (okHandler 0) "" [] [] [("greet", cmdC9)]

def cmdC8 : Cmd := Cmd.mk "greet" (okHandler 1) "" [optC3] [] []

def optC10 : Opt := ⟨"name", "", .str, Value.str "World", false, "", false⟩

def cmdC10 : Cmd := Cmd.mk "greet" (okHandler 1) "" [optC10] [] []

def cmdC2 : Cmd :=
  Cmd.mk "greet" (okHandler 1) ""
    [⟨"name", "", .str, Value.str "World", false, "", false⟩,
     ⟨"count", "c", .int, Value.int 1, false, "", false⟩]
    [⟨"target", .str, true, Value.str "here", "", ""⟩]
    []

theorem lookupPairs_append {α : Type} (m l : List (String × α)) (n : String) :
    lookupPairs (m ++ l) n =
      match lookupPairs m n with
      | some v => some v
      | none => lookupPairs l n := by
  induction m with
  | nil => simp [lookupPairs]
  | cons p rest ih =>
    obtain ⟨k, v⟩ := p
    by_cases h : k = n <;> simp [lookupPairs, h, ih]

theorem lookupPairs_updateAssoc {α : Type} (m : List (String × α)) (k n : String) (v : α) :
    lookupPairs (updateAssoc m k v) n = if k = n then some v else lookupPairs m n := by
  induction m with
  | nil => simp [updateAssoc, lookupPairs]
  | cons p rest ih =>
    obtain ⟨k0, w⟩ := p
    by_cases h0 : k0 = k
    · subst h0
      by_cases hn : k0 = n <;> simp [updateAssoc, lookupPairs, hn]
    · by_cases hn : k0 = n
      · subst hn
        simp [updateAssoc, lookupPairs, h0]
        rw [if_neg fun hh => h0 hh.symm]
      · simp [updateAssoc, lookupPairs, h0, hn, ih]

theorem fillDefaults_lookup (ds : List (String × Value)) (m : List (String × Value)) (n : String) :
    lookupPairs (fillDefaults m ds) n =
      match lookupPairs m n with
      | some v => some v
      | none => lookupPairs ds n := by
  induction ds generalizing m with
  | nil => cases h : lookupPairs m n <;> simp [fillDefaults, h, lookupPairs]
  | cons p rest ih =>
    obtain ⟨n0, d0⟩ := p
    simp only [fillDefaults]
    rw [ih]
    cases h0 : lookupPairs m n0 <;> by_cases hn : n0 = n <;>
      cases h : lookupPairs m n <;>
      simp_all [lookupPairs_append, lookupPairs]

theorem lookupPairs_optDefaults (opts : List Opt) (n : String) :
    lookupPairs (optDefaults opts) n = (findOptBy opts n).map Opt.default := by
  induction opts with
  | nil => simp [optDefaults, lookupPairs, findOptBy]
  | cons o rest ih =>
    by_cases h : Opt.name o = n <;> simp_all [optDefaults, lookupPairs, findOptBy, h]

theorem lookupPairs_argDefaults (args : List Arg) (n : String) :
    lookupPairs (argDefaults args) n = (findArgBy args n).map Arg.default := by
  induction args with
  | nil => simp [argDefaults, lookupPairs, findArgBy]
  | cons a rest ih =>
    by_cases h : Arg.name a = n <;> simp_all [argDefaults, lookupPairs, findArgBy, h]

theorem splitFirstEq_not_mem (l : List Char) (h : '=' ∉ l) : splitFirstEq l = none := by
  induction l with
  | nil => rfl
  | cons c cs ih =>
    simp only [List.mem_cons, not_or] at h
    have hc : ¬ c = '=' := fun hh => h.1 hh.symm
    simp [splitFirstEq, hc, ih h.2]

theorem splitFirstEq_append (k v : List Char) (h : '=' ∉ k) :
    splitFirstEq (k ++ '=' :: v) = some (k, v) := by
  induction k with
  | nil => simp [splitFirstEq]
  | cons c cs ih =>
    simp only [List.mem_cons, not_or] at h
    have hc : ¬ c = '=' := fun hh => h.1 hh.symm
    simp [splitFirstEq, hc, ih h.2]

theorem data_dd (s : String) : ("--" ++ s).data = '-' :: '-' :: s.data := by
  rw [String.data_append]; rfl

theorem startsDashDash_dd (s : String) : startsDashDash ("--" ++ s) = true := by
  simp [startsDashDash, data_dd]

theorem dropDashes_dd (s : String) : dropDashes ("--" ++ s) = s.data := by
  simp [dropDashes, data_dd]

theorem data_dd_eq (key v : String) :
    ("--" ++ key ++ "=" ++ v).data = '-' :: '-' :: (key.data ++ '=' :: v.data) := by
  simp only [String.data_append]
  simp [List.append_assoc]

theorem startsDashDash_dd_eq (key v : String) :
    startsDashDash ("--" ++ key ++ "=" ++ v) = true := by
  simp [startsDashDash, data_dd_eq]

theorem dropDashes_dd_eq (key v : String) :
    dropDashes ("--" ++ key ++ "=" ++ v) = key.data ++ '=' :: v.data := by
  simp [dropDashes, data_dd_eq]

theorem mk_data (s : String) : String.mk s.data = s := rfl

theorem setParent_options (x p : Ctx) : Ctx.options (setParent x p) = Ctx.options x := by
  cases x; rfl

theorem setParent_arguments (x p : Ctx) : Ctx.arguments (setParent x p) = Ctx.arguments x := by
  cases x; rfl

theorem setParent_command (x p : Ctx) : Ctx.command (setParent x p) = Ctx.command x := by
  cases x; rfl

theorem setParent_parent (x p : Ctx) : Ctx.parent (setParent x p) = some p := by
  cases x; rfl

theorem findOptBy_isSome_of_mem (opts : List Opt) (o : Opt) (hm : o ∈ opts) :
    (findOptBy opts (Opt.name o)).isSome := by
  induction opts with
  | nil => cases hm
  | cons o0 rest ih =>
    by_cases h : Opt.name o0 = Opt.name o
    · simp [findOptBy, h]
    · rcases List.mem_cons.mp hm with rfl | hm2
      · exact absurd rfl h
      · simp [findOptBy, h, ih hm2]

theorem findOptBy_self (opts : List Opt) (o : Opt)
    (h : (opts.map Opt.name).Nodup) (hm : o ∈ opts) :
    findOptBy opts (Opt.name o) = some o := by
  induction opts with
  | nil => cases hm
  | cons o0 rest ih =>
    rw [List.map_cons, List.nodup_cons] at h
    rcases List.mem_cons.mp hm with rfl | hm2
    · simp [findOptBy]
    · have hne : ¬ Opt.name o0 = Opt.name o := by
        intro he
        exact h.1 (he ▸ List.mem_map_of_mem Opt.name hm2)
      simp [findOptBy, hne, ih h.2 hm2]

theorem findArgBy_self (args : List Arg) (a : Arg)
    (h : (args.map Arg.name).Nodup) (hm : a ∈ args) :
    findArgBy args (Arg.name a) = some a := by
  induction args with
  | nil => cases hm
  | cons a0 rest ih =>
    rw [List.map_cons, List.nodup_cons] at h
    rcases List.mem_cons.mp hm with rfl | hm2
    · simp [findArgBy]
    · have hne : ¬ Arg.name a0 = Arg.name a := by
        intro he
        exact h.1 (he ▸ List.mem_map_of_mem Arg.name hm2)
      simp [findArgBy, hne, ih h.2 hm2]

theorem chStarts_refl_append (p t : List Char) : chStarts p (p ++ t) = true := by
  induction p with
  | nil => rfl
  | cons c cs ih => simp [chStarts, ih]

theorem chStarts_append_right (p s t : List Char) (h : chStarts p s = true) :
    chStarts p (s ++ t) = true := by
  induction p generalizing s with
  | nil => rfl
  | cons c cs ih =>
    cases s with
    | nil => simp [chStarts] at h
    | cons c0 s0 =>
      simp only [chStarts, Bool.and_eq_true] at h
      simp [chStarts, h.1, ih s0 h.2]

theorem containsSubChars_of_chStarts (pat s : List Char) (h : chStarts pat s = true) :
    containsSubChars pat s = true := by
  cases s with
  | nil => exact h
  | cons c cs => simp [containsSubChars, h]

theorem containsSubChars_append_left (pat x y : List Char)
    (h : containsSubChars pat x = true) :
    containsSubChars pat (x ++ y) = true := by
  induction x with
  | nil =>
    have hp : pat = [] := by
      cases pat with
      | nil => rfl
      | cons p ps => simp [containsSubChars, chStarts] at h
    subst hp
    exact containsSubChars_of_chStarts [] y rfl
  | cons c cs ih =>
    simp only [containsSubChars, Bool.or_eq_true] at h
    rcases h with h | h
    · have := chStarts_append_right pat (c :: cs) y h
      simp only [List.cons_append] at this ⊢
      simp [containsSubChars, this]
    · simp [containsSubChars, ih h]

theorem containsSubChars_mid (pat x y : List Char) :
    containsSubChars pat (x ++ pat ++ y) = true := by
  induction x with
  | nil =>
    simp only [List.nil_append]
    exact containsSubChars_of_chStarts pat (pat ++ y) (chStarts_refl_append pat y)
  | cons c cs ih =>
    simp only [List.cons_append, containsSubChars, Bool.or_eq_true]
    exact Or.inr (by simpa [List.append_assoc] using ih)

/-- The int `ValueError` message contains the offending literal. -/
theorem intErrMsg_contains_lit (lit : String) : strContains (intErrMsg lit) lit = true := by
  have hdata : (intErrMsg lit).data =
      (("invalid literal for int() with base 10: ".data ++ sq.data) ++ lit.data ++ sq.data) := by
    simp [intErrMsg, q, String.data_append, List.append_assoc]
  rw [strContains, hdata]
  exact containsSubChars_mid lit.data _ _

/-- The float `ValueError` message contains the offending literal. -/
theorem floatErrMsg_contains_lit (lit : String) : strContains (floatErrMsg lit) lit = true := by
  have hdata : (floatErrMsg lit).data =
      (("could not convert string to float: ".data ++ sq.data) ++ lit.data ++ sq.data) := by
    simp [floatErrMsg, q, String.data_append, List.append_assoc]
  rw [strContains, hdata]
  exact containsSubChars_mid lit.data _ _

/-- The int `ValueError` message names the expected type. -/
theorem intErrMsg_contains_int (lit : String) : strContains (intErrMsg lit) "int" = true := by
  have hdata : (intErrMsg lit).data =
      ("invalid literal for int() with base 10: ".data ++ (sq.data ++ lit.data ++ sq.data)) := by
    simp [intErrMsg, q, String.data_append, List.append_assoc]
  rw [strContains, hdata]
  exact containsSubChars_append_left _ _ _ (by decide)

/-- The float `ValueError` message names the expected type. -/
theorem floatErrMsg_contains_float (lit : String) :
    strContains (floatErrMsg lit) "float" = true := by
  have hdata : (floatErrMsg lit).data =
      ("could not convert string to float: ".data ++ (sq.data ++ lit.data ++ sq.data)) := by
    simp [floatErrMsg, q, String.data_append, List.append_assoc]
  rw [strContains, hdata]
  exact containsSubChars_append_left _ _ _ (by decide)

theorem fireErrorHooks_all_ok (hooks : List HookB) (e : PyExc)
    (h : firstRaise hooks = none) :
    fireErrorHooks hooks e = (hooks.map (fun _ => e), none) := by
  induction hooks with
  | nil => rfl
  | cons hk rest ih =>
    cases hk with
    | ok =>
      rw [firstRaise] at h
      simp [fireErrorHooks, ih h]
    | raiseExc e2 => simp [firstRaise] at h

/-- C1: in scanning state, a bare token (neither `--`-form nor `-X`-form)
that names a registered subcommand always delegates: a child `Parser` is
run on the remaining tokens (the subcommand token excluded), its `Context`
is returned immediately as the result of the whole parse, and its `parent`
field is set to the current partially built `Context`
(`parentCtxOf c st`).  The loop state `st` is universally quantified with
no constraint on `st.argIdx` or `c.arguments`, so delegation happens even
when the current `Command` still has an unfilled positional `Argument` at
that position: subcommand lookup wins over positional binding. -/
theorem subcommand_delegates (c : Cmd) (st : PState) (t : String)
    (rest : List String) (sub : Cmd)
    (hdd : startsDashDash t = false) (hsf : shortForm? t = none)
    (hsub : findSub (Cmd.subcommands c) t = some sub) :
    parseLoop c st (t :: rest) =
      Except.map (fun subCtx => setParent subCtx (parentCtxOf c st))
        (parseLoop sub initState rest) := by
  conv_lhs => rw [parseLoop.eq_def]
  cases h : parseLoop sub initState rest <;>
    simp [stepTok, hdd, hsf, hsub, h, Except.map]

/-- Witness for C1: `db` has the unfilled positional `target` at index 0
and still delegates `["migrate"]` to the `migrate` subcommand. -/
theorem subcommand_delegates_witness :
    findSub (Cmd.subcommands dbC1) "migrate" = some migrateC1 ∧
    (0 < (Cmd.arguments dbC1).length) ∧
    parseLoop dbC1 initState ["migrate"] =
      Except.map (fun subCtx => setParent subCtx (parentCtxOf dbC1 initState))
        (parseLoop migrateC1 initState []) :=
  ⟨rfl, by decide,
   subcommand_delegates dbC1 initState "migrate" [] migrateC1 rfl rfl rfl⟩

/-- C3: for a registered long option `key` (whose name contains no `=`),
the two-token form `--key v` and the one-token form `--key=v` leave the
parser in identical configurations, so the whole parse result — in
particular the resolved value of that option — is identical, from any
loop state and with any remaining tokens. -/
theorem long_option_forms_agree (c : Cmd) (st : PState) (key v : String)
    (rest : List String) (o : Opt)
    (hk : '=' ∉ key.data) (ho : findOption c key = some o) :
    parseLoop c st (("--" ++ key) :: v :: rest) =
      parseLoop c st (("--" ++ key ++ "=" ++ v) :: rest) := by
  conv_lhs => rw [parseLoop.eq_def]
  conv_rhs => rw [parseLoop.eq_def]
  simp only [stepTok, startsDashDash_dd, startsDashDash_dd_eq, dropDashes_dd,
             dropDashes_dd_eq, splitFirstEq_not_mem key.data hk,
             splitFirstEq_append key.data v.data hk, mk_data, ho, if_true]
  cases hc : convert (some v) (Opt.type o) <;> simp [hc]

/-- Witness for C3 at `--name Ada` versus `--name=Ada`. -/
theorem long_option_forms_agree_witness :
    ('=' ∉ ("name" : String).data) ∧
    findOption cmdC3 "name" = some optC3 ∧
    parseLoop cmdC3 initState ["--name", "Ada"] =
      parseLoop cmdC3 initState ["--name=Ada"] :=
  ⟨by decide, rfl,
   long_option_forms_agree cmdC3 initState "name" "Ada" [] optC3 (by decide) rfl⟩

/-- C8: an unknown long option token `--bogus` (no `=` in the name, not a
registered option) together with the following token is silently consumed
and dropped: the parse continues exactly as if the two tokens were not
there, from any loop state. -/
theorem unknown_long_option_dropped (c : Cmd) (st : PState) (bogus v : String)
    (rest : List String)
    (hk : '=' ∉ bogus.data) (ho : findOption c bogus = none) :
    parseLoop c st (("--" ++ bogus) :: v :: rest) = parseLoop c st rest := by
  conv_lhs => rw [parseLoop.eq_def]
  simp [stepTok, startsDashDash_dd, dropDashes_dd,
        splitFirstEq_not_mem bogus.data hk, mk_data, ho]

/-- Witness for C8: `--bogus value` dropped in front of `--name Ada`. -/
theorem unknown_long_option_dropped_witness :
    findOption cmdC8 "bogus" = none ∧
    parseLoop cmdC8 initState ["--bogus", "value", "--name", "Ada"] =
      parseLoop cmdC8 initState ["--name", "Ada"] :=
  ⟨rfl,
   unknown_long_option_dropped cmdC8 initState "bogus" "value" ["--name", "Ada"]
     (by decide) rfl⟩

/-- C10: when `--key` (a registered long option, no `=`) is the final
token, the parser stores `None` as the option's value (no coercion:
`_convert` passes `None` through), and since the name is then present in
the options mapping, `_apply_defaults` does not overwrite it — the final
context maps the option to `None` whatever its declared default is. -/
theorem trailing_long_flag_stores_none (c : Cmd) (st : PState) (key : String) (o : Opt)
    (hk : '=' ∉ key.data) (ho : findOption c key = some o) :
    ∃ ctx, parseLoop c st [("--" ++ key)] = .ok ctx ∧
      lookupPairs (Ctx.options ctx) (Opt.name o) = some Value.none := by
  obtain ⟨so, sa, scl, si⟩ := st
  rw [parseLoop.eq_def]
  simp only [stepTok, startsDashDash_dd, if_true, dropDashes_dd,
             splitFirstEq_not_mem key.data hk, mk_data, ho, convert]
  refine ⟨_, rfl, ?_⟩
  simp only [finish, Ctx.options, setOpt]
  rw [fillDefaults_lookup]
  simp [lookupPairs_updateAssoc]

/-- Witness for C10: `--name` as final token yields `None` even though
the declared default is `"World"` (in particular not the default). -/
theorem trailing_long_flag_stores_none_witness :
    findOption cmdC10 "name" = some optC10 ∧
    Opt.default optC10 = Value.str "World" ∧
    (∃ ctx, parseLoop cmdC10 initState ["--name"] = .ok ctx ∧
      lookupPairs (Ctx.options ctx) (Opt.name optC10) = some Value.none) :=
  ⟨rfl, rfl,
   trailing_long_flag_stores_none cmdC10 initState "name" optC10 (by decide) rfl⟩

/-- C2: parsing the empty token stream yields a `Context` in which every
declared `Option` maps to its declared default and every declared
`Argument` (variadic or not, hence in particular every non-variadic one)
maps to its declared default.  The `Nodup` hypotheses are the declared
invariant that descriptor names are unique among siblings. -/
theorem parse_empty_all_defaults (c : Cmd)
    (hO : ((Cmd.options c).map Opt.name).Nodup)
    (hA : ((Cmd.arguments c).map Arg.name).Nodup) :
    ∃ ctx, parse c [] = .ok ctx ∧
      (∀ o ∈ Cmd.options c,
        lookupPairs (Ctx.options ctx) (Opt.name o) = some (Opt.default o)) ∧
      (∀ a ∈ Cmd.arguments c,
        lookupPairs (Ctx.arguments ctx) (Arg.name a) = some (Arg.default a)) := by
  refine ⟨finish c initState, rfl, ?_, ?_⟩
  · intro o ho
    simp only [finish, Ctx.options]
    rw [fillDefaults_lookup]
    simp only [initState, lookupPairs]
    rw [lookupPairs_optDefaults, findOptBy_self (Cmd.options c) o hO ho]
    rfl
  · intro a ha
    simp only [finish, Ctx.arguments]
    rw [fillDefaults_lookup]
    have hflush : flushCollected initState = [] := rfl
    rw [hflush]
    simp only [lookupPairs]
    rw [lookupPairs_argDefaults, findArgBy_self (Cmd.arguments c) a hA ha]
    rfl

/-- Witness for C2 on a command with two options and one argument. -/
theorem parse_empty_all_defaults_witness :
    ((Cmd.options cmdC2).map Opt.name).Nodup ∧
    ((Cmd.arguments cmdC2).map Arg.name).Nodup ∧
    (∃ ctx, parse cmdC2 [] = .ok ctx ∧
      (∀ o ∈ Cmd.options cmdC2,
        lookupPairs (Ctx.options ctx) (Opt.name o) = some (Opt.default o)) ∧
      (∀ a ∈ Cmd.arguments cmdC2,
        lookupPairs (Ctx.arguments ctx) (Arg.name a) = some (Arg.default a))) :=
  ⟨by decide, by decide, parse_empty_all_defaults cmdC2 (by decide) (by decide)⟩

/-- A bare positional token processed while the current positional index
points at a variadic `Argument` is appended to that argument's
accumulator, and the index does not advance. -/
theorem parseLoop_variadic_step (c : Cmd) (st : PState) (a : Arg) (t : String)
    (rest : List String) (v : Value)
    (hb : startsDashDash t = false) (hs : shortForm? t = none)
    (hd : findSub (Cmd.subcommands c) t = none)
    (hidx : (Cmd.arguments c)[PState.argIdx st]? = some a)
    (hnb : (Arg.nargs a = "*" || Arg.nargs a = "+") = true)
    (hc : convert (some t) (Arg.type a) = .ok v) :
    parseLoop c st (t :: rest) = parseLoop c (pushCollected st (Arg.name a) v) rest := by
  conv_lhs => rw [parseLoop.eq_def]
  simp [stepTok, hb, hs, hd, hidx, hnb, hc]

/-- C4: with a variadic `Argument` as the (only) last declared argument,
the positional tokens `t1 t2 t3` all accumulate, in order, into that
argument — the positional index never advances — and the final context
binds it to the ordered list `[v1, v2, v3]`; and on zero positional
tokens (also for `nargs="+"`: no one-or-more enforcement exists) the
argument is left at its declared default. -/
theorem variadic_collects_and_plus_defaults (c : Cmd) (a : Arg)
    (t1 t2 t3 : String) (v1 v2 v3 : Value)
    (hargs : Cmd.arguments c = [a])
    (hn : Arg.nargs a = "*" ∨ Arg.nargs a = "+")
    (hb1 : startsDashDash t1 = false) (hs1 : shortForm? t1 = none)
    (hd1 : findSub (Cmd.subcommands c) t1 = none)
    (hb2 : startsDashDash t2 = false) (hs2 : shortForm? t2 = none)
    (hd2 : findSub (Cmd.subcommands c) t2 = none)
    (hb3 : startsDashDash t3 = false) (hs3 : shortForm? t3 = none)
    (hd3 : findSub (Cmd.subcommands c) t3 = none)
    (hc1 : convert (some t1) (Arg.type a) = .ok v1)
    (hc2 : convert (some t2) (Arg.type a) = .ok v2)
    (hc3 : convert (some t3) (Arg.type a) = .ok v3) :
    (∃ ctx, parse c [t1, t2, t3] = .ok ctx ∧
      lookupPairs (Ctx.arguments ctx) (Arg.name a) = some (Value.list [v1, v2, v3])) ∧
    (∃ ctx, parse c [] = .ok ctx ∧
      lookupPairs (Ctx.arguments ctx) (Arg.name a) = some (Arg.default a)) := by
  have hnb : (Arg.nargs a = "*" || Arg.nargs a = "+") = true := by
    rcases hn with h | h <;> simp [h]
  constructor
  · rw [parse]
    rw [parseLoop_variadic_step c initState a t1 [t2, t3] v1 hb1 hs1 hd1
          (by simp [hargs, initState]) hnb hc1]
    rw [parseLoop_variadic_step c _ a t2 [t3] v2 hb2 hs2 hd2
          (by simp [hargs, initState, pushCollected]) hnb hc2]
    rw [parseLoop_variadic_step c _ a t3 [] v3 hb3 hs3 hd3
          (by simp [hargs, initState, pushCollected]) hnb hc3]
    refine ⟨_, by rw [parseLoop], ?_⟩
    simp only [finish, Ctx.arguments, initState, pushCollected, appendAt]
    rw [fillDefaults_lookup]
    simp [flushCollected, updateAssoc, lookupPairs]
  · refine ⟨finish c initState, rfl, ?_⟩
    simp only [finish, Ctx.arguments]
    rw [fillDefaults_lookup]
    have hflush : flushCollected initState = [] := rfl
    rw [hflush]
    simp [lookupPairs, hargs, argDefaults]

/-- Witness for C4: `nargs="+"` argument `files` collects `a b c` in
order, and parses to its (non-list) declared default on zero tokens. -/
theorem variadic_collects_and_plus_defaults_witness :
    Cmd.arguments cmdC4 = [argC4] ∧
    Arg.nargs argC4 = "+" ∧
    ((∃ ctx, parse cmdC4 ["a", "b", "c"] = .ok ctx ∧
      lookupPairs (Ctx.arguments ctx) (Arg.name argC4) =
        some (Value.list [Value.str "a", Value.str "b", Value.str "c"])) ∧
     (∃ ctx, parse cmdC4 [] = .ok ctx ∧
      lookupPairs (Ctx.arguments ctx) (Arg.name argC4) = some (Arg.default argC4))) :=
  ⟨rfl, rfl,
   variadic_collects_and_plus_defaults cmdC4 argC4 "a" "b" "c"
     (Value.str "a") (Value.str "b") (Value.str "c")
     rfl (Or.inr rfl) rfl rfl rfl rfl rfl rfl rfl rfl rfl rfl rfl rfl⟩

/-- Every option declared on `c` is present in the options mapping of
`finish c st`, whatever the loop state was. -/
theorem finish_options_filled (c : Cmd) (st : PState) (o : Opt)
    (ho : o ∈ Cmd.options c) :
    (lookupPairs (Ctx.options (finish c st)) (Opt.name o)).isSome := by
  simp only [finish, Ctx.options]
  rw [fillDefaults_lookup]
  cases h : lookupPairs (PState.options st) (Opt.name o) with
  | some v => simp
  | none =>
    simp only []
    rw [lookupPairs_optDefaults]
    cases hf : findOptBy (Cmd.options c) (Opt.name o) with
    | some o2 => simp
    | none =>
      have hs := findOptBy_isSome_of_mem (Cmd.options c) o ho
      rw [hf] at hs
      simp at hs

/-- Bounded-depth structural fact behind C5: any `.ok` result of the
parse loop resolves to the command and pre-defaults loop state computed
by `parseLoopPre`, and its options mapping is exactly that loop state's
options with `_apply_defaults` applied over the resolved command's
declared options. -/
theorem parseLoopPreAux (n : Nat) :
    ∀ (toks : List String), toks.length ≤ n → ∀ (c : Cmd) (st : PState) (ctx : Ctx),
      parseLoop c st toks = .ok ctx →
      ∃ c2 st2, parseLoopPre c st toks = some (c2, st2) ∧
        Ctx.command ctx = c2 ∧
        Ctx.options ctx =
          fillDefaults (PState.options st2) (optDefaults (Cmd.options c2)) := by
  induction n with
  | zero =>
    intro toks hlen c st ctx h
    have htoks : toks = [] := List.eq_nil_of_length_eq_zero (Nat.le_zero.mp hlen)
    subst htoks
    simp only [parseLoop, Except.ok.injEq] at h
    subst h
    exact ⟨c, st, rfl, rfl, rfl⟩
  | succ n ih =>
    intro toks hlen c st ctx h
    cases toks with
    | nil =>
      simp only [parseLoop, Except.ok.injEq] at h
      subst h
      exact ⟨c, st, rfl, rfl, rfl⟩
    | cons a rest =>
      have hrest : rest.length ≤ n := by
        simpa [List.length_cons, Nat.succ_le_succ_iff] using hlen
      rw [parseLoop] at h
      rw [parseLoopPre]
      cases hstep : stepTok c st a rest with
      | err e => simp [hstep] at h
      | stop st2 =>
        simp only [hstep, Except.ok.injEq] at h
        subst h
        simp only [hstep]
        exact ⟨c, st2, rfl, rfl, rfl⟩
      | deleg sub =>
        simp only [hstep] at h
        simp only [hstep]
        cases hsub : parseLoop sub initState rest with
        | error e => simp [hsub] at h
        | ok subCtx =>
          simp only [hsub, Except.ok.injEq] at h
          subst h
          obtain ⟨c2, st2, hpre, hcmd, hopts⟩ := ih rest hrest sub initState subCtx hsub
          exact ⟨c2, st2, hpre, by rw [setParent_command, hcmd],
                 by rw [setParent_options, hopts]⟩
      | cont0 st2 =>
        simp only [hstep] at h
        simp only [hstep]
        exact ih rest hrest c st2 ctx h
      | cont1 st2 =>
        simp only [hstep] at h
        simp only [hstep]
        cases rest with
        | nil =>
          simp only [Except.ok.injEq] at h
          subst h
          exact ⟨c, st2, rfl, rfl, rfl⟩
        | cons b rest2 =>
          have hrest2 : rest2.length ≤ n := by
            simp only [List.length_cons] at hrest
            omega
          exact ih rest2 hrest2 c st2 ctx h

/-- C5 counterexample: `cmdC5` declares option `verbose` (default
`"no"`); parsing `["s"]` delegates to subcommand `s` and returns early
(line 94) before `_apply_defaults` runs for the parent, so the parent
context attached to the result has an EMPTY options mapping — `verbose`
is absent, contradicting the claim that every parent context along the
delegation chain is fully populated. -/
theorem parent_context_not_populated :
    optVerbose ∈ Cmd.options cmdC5 ∧
    parse cmdC5 ["s"] = .ok ctxC5 ∧
    Ctx.parent ctxC5 = some parentC5 ∧
    Ctx.command parentC5 = cmdC5 ∧
    lookupPairs (Ctx.options parentC5) (Opt.name optVerbose) = none :=
  ⟨by simp [cmdC5, Cmd.options], rfl, rfl, rfl, rfl⟩

/-- C5 amended: the options mapping of the context finally RETURNED by a
parse is fully populated in the claim's sense: writing `(c2, st2)` for
the command the parse resolves to and the pre-defaults loop state (as
computed by `parseLoopPre`), every option declared on `c2` is present in
the final mapping; every option the parse SET keeps its parsed value;
and every UNSET option (name absent from `st2.options`, which is what
`_apply_defaults` tests) holds its declared default, under the sibling
name-uniqueness invariant.  Parent contexts along the delegation chain
are the delegating parsers' partially built contexts: defaults are not
applied to them, and options not set by tokens before the subcommand
name are absent from them (see the counterexample). -/
theorem final_context_options_populated (c : Cmd) (toks : List String) (ctx : Ctx)
    (h : parse c toks = .ok ctx) :
    ∃ c2 st2, parseLoopPre c initState toks = some (c2, st2) ∧
      Ctx.command ctx = c2 ∧
      (∀ o ∈ Cmd.options c2, (lookupPairs (Ctx.options ctx) (Opt.name o)).isSome) ∧
      (∀ n v, lookupPairs (PState.options st2) n = some v →
        lookupPairs (Ctx.options ctx) n = some v) ∧
      (((Cmd.options c2).map Opt.name).Nodup →
        ∀ o ∈ Cmd.options c2,
          lookupPairs (PState.options st2) (Opt.name o) = none →
          lookupPairs (Ctx.options ctx) (Opt.name o) = some (Opt.default o)) := by
  obtain ⟨c2, st2, hpre, hcmd, hopts⟩ :=
    parseLoopPreAux toks.length toks (Nat.le_refl _) c initState ctx h
  refine ⟨c2, st2, hpre, hcmd, ?_, ?_, ?_⟩
  · intro o ho
    rw [hopts]
    exact finish_options_filled c2 st2 o ho
  · intro n v hv
    rw [hopts, fillDefaults_lookup, hv]
  · intro hnd o ho hunset
    rw [hopts, fillDefaults_lookup, hunset]
    simp only []
    rw [lookupPairs_optDefaults, findOptBy_self (Cmd.options c2) o hnd ho]
    rfl

/-- Witness for the C5 amended theorem on `parse cmdC5w ["s", "--name",
"Ada"]`: the resolved subcommand declares two options; `name` was set by
a token and keeps `"Ada"`, `verbose` was left unset and holds its
declared default `"no"`; both are present. -/
theorem final_context_options_populated_witness :
    parse cmdC5w ["s", "--name", "Ada"] = .ok ctxC5w ∧
    Cmd.options subC5w = [optNameC5, optVerbose] ∧
    lookupPairs (Ctx.options ctxC5w) "name" = some (Value.str "Ada") ∧
    lookupPairs (Ctx.options ctxC5w) "verbose" = some (Value.str "no") ∧
    (∃ c2 st2, parseLoopPre cmdC5w initState ["s", "--name", "Ada"] = some (c2, st2) ∧
      Ctx.command ctxC5w = c2 ∧
      (∀ o ∈ Cmd.options c2, (lookupPairs (Ctx.options ctxC5w) (Opt.name o)).isSome) ∧
      (∀ n v, lookupPairs (PState.options st2) n = some v →
        lookupPairs (Ctx.options ctxC5w) n = some v) ∧
      (((Cmd.options c2).map Opt.name).Nodup →
        ∀ o ∈ Cmd.options c2,
          lookupPairs (PState.options st2) (Opt.name o) = none →
          lookupPairs (Ctx.options ctxC5w) (Opt.name o) = some (Opt.default o))) :=
  ⟨rfl, rfl, rfl, rfl,
   final_context_options_populated cmdC5w ["s", "--name", "Ada"] ctxC5w rfl⟩

/-- C6 counterexample: parsing `--count abc` where `count` is a declared
integer option fails with the BUILTIN `ValueError` of Python's `int()` —
there is no `ConversionError` class anywhere in the module — and the
message mentions the offending token and the type but NOT the option
name `count`. -/
theorem malformed_int_no_conversion_error :
    parse cmdC6 ["--count", "abc"] = .error ⟨"ValueError", intErrMsg "abc"⟩ ∧
    PyExc.cls ⟨"ValueError", intErrMsg "abc"⟩ ≠ "ConversionError" ∧
    strContains (PyExc.msg ⟨"ValueError", intErrMsg "abc"⟩) "abc" = true ∧
    strContains (PyExc.msg ⟨"ValueError", intErrMsg "abc"⟩) "count" = false :=
  ⟨rfl, by decide, by decide, by decide⟩

/-- C6 amended: a malformed numeric literal supplied for an `int`- or
`float`-typed option (first conjunct) or positional argument (second
conjunct) aborts the parse with the builtin `ValueError` raised by the
type constructor; the error message identifies the offending token and
the expected type, but it is not a `ConversionError` and does not carry
the option/argument name (counterexample above). -/
theorem malformed_numeric_raises_value_error (c : Cmd) (st : PState)
    (key lit : String) (rest : List String) (o : Opt) (a : Arg) :
    (('=' ∉ key.data) → findOption c key = some o →
      ((Opt.type o = PyType.int ∧ pyIntParse lit = none) ∨
       (Opt.type o = PyType.float ∧ pyFloatOk lit = false)) →
      ∃ e, parseLoop c st (("--" ++ key) :: lit :: rest) = .error e ∧
        PyExc.cls e = "ValueError" ∧
        strContains (PyExc.msg e) lit = true ∧
        strContains (PyExc.msg e) (typeName (Opt.type o)) = true) ∧
    (startsDashDash lit = false → shortForm? lit = none →
      findSub (Cmd.subcommands c) lit = none →
      (Cmd.arguments c)[PState.argIdx st]? = some a →
      ((Arg.type a = PyType.int ∧ pyIntParse lit = none) ∨
       (Arg.type a = PyType.float ∧ pyFloatOk lit = false)) →
      ∃ e, parseLoop c st (lit :: rest) = .error e ∧
        PyExc.cls e = "ValueError" ∧
        strContains (PyExc.msg e) lit = true ∧
        strContains (PyExc.msg e) (typeName (Arg.type a)) = true) := by
  constructor
  · intro hk ho hnum
    rcases hnum with ⟨hty, hbad⟩ | ⟨hty, hbad⟩
    · refine ⟨⟨"ValueError", intErrMsg lit⟩, ?_, rfl,
        intErrMsg_contains_lit lit, ?_⟩
      · conv_lhs => rw [parseLoop.eq_def]
        simp [stepTok, startsDashDash_dd, dropDashes_dd,
              splitFirstEq_not_mem key.data hk, mk_data, ho, hty, convert, hbad]
      · simpa [hty, typeName] using intErrMsg_contains_int lit
    · refine ⟨⟨"ValueError", floatErrMsg lit⟩, ?_, rfl,
        floatErrMsg_contains_lit lit, ?_⟩
      · conv_lhs => rw [parseLoop.eq_def]
        simp [stepTok, startsDashDash_dd, dropDashes_dd,
              splitFirstEq_not_mem key.data hk, mk_data, ho, hty, convert, hbad]
      · simpa [hty, typeName] using floatErrMsg_contains_float lit
  · intro hb hs hd hidx hnum
    rcases hnum with ⟨hty, hbad⟩ | ⟨hty, hbad⟩
    · refine ⟨⟨"ValueError", intErrMsg lit⟩, ?_, rfl,
        intErrMsg_contains_lit lit, ?_⟩
      · conv_lhs => rw [parseLoop.eq_def]
        by_cases hn : (Arg.nargs a = "*" || Arg.nargs a = "+") = true <;>
          simp [stepTok, hb, hs, hd, hidx, hn, hty, convert, hbad]
      · simpa [hty, typeName] using intErrMsg_contains_int lit
    · refine ⟨⟨"ValueError", floatErrMsg lit⟩, ?_, rfl,
        floatErrMsg_contains_lit lit, ?_⟩
      · conv_lhs => rw [parseLoop.eq_def]
        by_cases hn : (Arg.nargs a = "*" || Arg.nargs a = "+") = true <;>
          simp [stepTok, hb, hs, hd, hidx, hn, hty, convert, hbad]
      · simpa [hty, typeName] using floatErrMsg_contains_float lit

/-- Witness for the C6 amended theorem: int option `count` fed `abc`, and
int positional `n` fed `abc`. -/
theorem malformed_numeric_raises_value_error_witness :
    pyIntParse "abc" = none ∧
    (∃ e, parseLoop cmdC6 initState ["--count", "abc"] = .error e ∧
      PyExc.cls e = "ValueError" ∧
      strContains (PyExc.msg e) "abc" = true ∧
      strContains (PyExc.msg e) "int" = true) ∧
    (∃ e, parseLoop cmdC6a initState ["abc"] = .error e ∧
      PyExc.cls e = "ValueError" ∧
      strContains (PyExc.msg e) "abc" = true ∧
      strContains (PyExc.msg e) "int" = true) :=
  ⟨rfl,
   (malformed_numeric_raises_value_error cmdC6 initState "count" "abc" [] optC6 argC6).1
     (by decide) rfl (Or.inl ⟨rfl, rfl⟩),
   (malformed_numeric_raises_value_error cmdC6a initState "count" "abc" [] optC6 argC6).2
     rfl rfl rfl rfl (Or.inl ⟨rfl, rfl⟩)⟩

/-- C7 counterexample: the `before` hook loop (lines 190-191) runs
OUTSIDE the `try` that starts at line 193, so a raising before hook
escapes `run`: no error hook fires (even though one is registered), no
stderr line is emitted, and no status is returned.  Likewise an error
hook that raises while handling a handler failure escapes `run` from
inside the `except` clause. -/
theorem hook_exceptions_escape_run :
    (CLIState.errorHooks cliBeforeRaises).length = 1 ∧
    run cliBeforeRaises ["x"] = (RunOutcome.uncaught excBoom, ⟨[], []⟩) ∧
    run cliErrorRaises ["x"] = (RunOutcome.uncaught excHook, ⟨[excHandler], []⟩) :=
  ⟨rfl, rfl, rfl⟩

/-- C7 amended: only exceptions raised inside the `try` block — parsing,
the handler call, or an `after` hook — are handled at the single
error boundary: when the before hooks and error hooks are well behaved
and an after hook raises `e`, `run` fires every registered error hook
with `e`, emits the one-line `Error: ...` message to stderr, and returns
the non-zero status 1.  Exceptions from before hooks and from error
hooks themselves escape `run` (counterexample above). -/
theorem after_hook_exception_hits_boundary (cli : CLIState) (a : String)
    (args2 : List String) (ctx : Ctx) (r : HandlerRet) (e : PyExc)
    (hb : firstRaise (CLIState.beforeHooks cli) = none)
    (herr : firstRaise (CLIState.errorHooks cli) = none)
    (hh : ¬ (a = "-h" ∨ a = "--help"))
    (hv : ¬ (a = "-v" ∨ a = "--version"))
    (hp : parse (CLIState.root cli) (a :: args2) = .ok ctx)
    (hhand : HandlerV.beh (Cmd.handler (Ctx.command ctx)) = .ret r)
    (hafter : firstRaise (CLIState.afterHooks cli) = some e) :
    run cli (a :: args2) =
      (RunOutcome.normal 1,
       ⟨(CLIState.errorHooks cli).map (fun _ => e),
        ["Error: " ++ PyExc.msg e]⟩) := by
  have hbody : tryBody cli (a :: args2) = .error e := by
    rw [tryBody]
    simp [hh, hv, hp, hhand, hafter]
  simp only [run, hb, hbody, fireErrorHooks_all_ok (CLIState.errorHooks cli) e herr]

/-- Witness for the C7 amended theorem: a raising after hook with two
well-behaved error hooks. -/
theorem after_hook_exception_hits_boundary_witness :
    firstRaise (CLIState.afterHooks cliAfterRaises) = some excHook ∧
    run cliAfterRaises ["x"] =
      (RunOutcome.normal 1,
       ⟨[excHook, excHook], ["Error: " ++ PyExc.msg excHook]⟩) :=
  ⟨rfl,
   after_hook_exception_hits_boundary cliAfterRaises "x" [] ctxC7
     (HandlerRet.intRet 0) excHook rfl rfl (by decide) (by decide) rfl rfl rfl⟩

/-- C9 (code bug): with `greet` registered as a top-level command,
applying the `CLI.argument` decorator to its handler finds the command
and then evaluates `Argument(name=name, type=type, required=required,
help=rue, nargs=nargs)` — but `rue` (line 173) is an unbound name, so the
call raises `NameError: name 'rue' is not defined` instead of appending
the descriptor and returning the handler. -/
theorem cli_argument_raises_name_error :
    findCommandForHandler rootC9 1 = some cmdC9 ∧
    cliArgument rootC9 1 "who" PyType.str true "who to greet" "" =
      .error ⟨"NameError", "name " ++ q "rue" ++ " is not defined"⟩ :=
  ⟨rfl, rfl⟩

end RoadCLI
